import Mathlib

/-!
# The notification service of `runtime/notify/service.go`

A shallow embedding of the `Service` type and of its methods `NewService`,
`Start`, `Stop`, `Status`, `RegisterFeed`, `RegisterHandler` and `Dispatch`,
together with the listener goroutine that `Start` spawns for every binding.

* A Go `map[string]V` is an `AList`: a finite map with at most one entry per
  key.  The order of the entries stands for one of the orders in which `range`
  may visit the map; no theorem below depends on it.
* A `*event.Feed` is an address into a heap of feed objects, so that the
  identity of a feed can be told apart from its content.  A feed object carries
  the element type that go-ethereum's `event.Feed` fixes at its first `Subscribe`
  or `Send` and checks at every later one.
* Goroutines are sequentialised as a labelled step function on a `World`: the
  calls of the API are atomic steps, and each listener goroutine takes one of the
  branches of its `select` per step.  A run is a list of such steps.
-/

namespace Notify

/-! ## Data model -/

/-- An `EventHandler`: the identity of an object with a `HandleNotification` method. -/
abbrev EventHandler := Nat

/-- A Go type, as far as the type check of a feed tells types apart: the interface type
`interface{}`, or a type that a value can have as its dynamic type, by name. -/
inductive GoType where
  | emptyInterface
  | concrete (name : String)
  deriving DecidableEq, Repr

/-- An event value, passed as `interface{}` in the source and otherwise opaque to the
service: a value `val` of the dynamic type named `typ`.  The `nil` interface value has no
dynamic type and is left out. -/
structure Event where
  typ : String
  val : Nat
  deriving DecidableEq, Repr

/-- The type that `reflect.ValueOf(event).Type()` gives: the dynamic type of the value,
which is never an interface type. -/
def Event.dynType (event : Event) : GoType :=
  GoType.concrete event.typ

/-- The address of a `event.Feed` object (`*event.Feed`). -/
abbrev FeedPtr := Nat

/-- The struct `eventHandlerQueuePair`: an event handler and a queue ID. -/
structure eventHandlerQueuePair where
  handler : EventHandler
  queueID : String
  deriving DecidableEq, Repr

/-- The closure `func() { pair.handler.HandleNotification(event) }` that a listener
hands to a dispatch queue: it captures the listener's `pair` and the received `event`. -/
structure Work where
  pair : eventHandlerQueuePair
  event : Event
  deriving DecidableEq, Repr

/-- One call `GetQueue(queueID).Async(work)`. -/
structure Submission where
  queueID : String
  work : Work
  deriving DecidableEq, Repr

/-- Modelled from the spec: the dispatch package (`GrandCentralDispatch`, `GetQueue`,
`Async`) is not among the sources.  The spec gives `GetQueue(key) -> Queue` and
`Queue.Async(unitOfWork)`, which schedules the unit of work for eventual execution
without blocking the caller; the dispatcher is therefore the record of the units of
work submitted to its queues, in the order of the `Async` calls. -/
structure GrandCentralDispatch where
  submitted : List Submission
  deriving DecidableEq, Repr

/-- Modelled from the spec: `GetQueue(queueID).Async(work)` accepts the unit of work for
the queue named `queueID` and returns at once. -/
def GrandCentralDispatch.Async (d : GrandCentralDispatch) (queueID : String) (u : Work) :
    GrandCentralDispatch :=
  { submitted := d.submitted ++ [{ queueID := queueID, work := u }] }

/-- The type `event.Feed` of go-ethereum, an external library that is not among the
sources: the spec's "multi-subscriber event source supporting synchronous
publish-and-block-until-delivered-to-each-subscriber semantics".  By the library's
contract a feed is used with a single type, "determined by the first Send or Subscribe
operation", and later calls "panic if the type does not match".  A feed object is that
element type (`none` while unused) and the list of the channels subscribed to it; a
channel is named by the index of the listener goroutine it was made for. -/
structure Feed where
  etype : Option GoType
  subs : List Nat
  deriving DecidableEq, Repr

/-- The call `feed.Subscribe(ch)` for a channel with element type `elem`: the first use of
the feed fixes its element type, a later one must match it; `none` is the panic of the
type check.  On success the channel is added to the subscribers. -/
def Feed.Subscribe (ch : Nat) (elem : GoType) (f : Feed) : Option Feed :=
  match f.etype with
  | none => some { etype := some elem, subs := f.subs ++ [ch] }
  | some t => if t = elem then some { f with subs := f.subs ++ [ch] } else none

/-- The call `feed.Send(event)` up to the point where the event is offered: the type check
compares the feed's element type with the dynamic type of the event (and fixes it at the
first use); `none` is its panic.  On success the event is offered to every subscribed
channel. -/
def Feed.Send (f : Feed) (event : Event) : Option (Feed × List Nat) :=
  match f.etype with
  | none => some ({ f with etype := some event.dynType }, f.subs)
  | some t => if t = event.dynType then some (f, f.subs) else none

/-- Modelled from the spec: the error values of the package (`ErrFeedNotFound`,
`ErrRegisterFeedServiceStarted`) are declared in a file that is not among the sources;
the spec calls them `FeedNotFound` and `InvalidLifecycleOperation`.
`closeOfClosedChannel` is the run-time panic of Go's `close` on a closed channel, and
`feedTypeError` the panic of a feed's type check ("wrong type in Send" or "Subscribe"). -/
inductive Err where
  | ErrFeedNotFound
  | ErrRegisterFeedServiceStarted
  | closeOfClosedChannel
  | feedTypeError
  deriving DecidableEq, Repr

/-- The struct `Service`.  `stop` is `true` once the channel `stop` has been closed;
`dispatch` holds the state of the dispatcher the service points to. -/
structure Service where
  running : Bool
  feeds : AList (fun _ : String => FeedPtr)
  handlers : AList (fun _ : String => List eventHandlerQueuePair)
  dispatch : GrandCentralDispatch
  stop : Bool

/-- Where a listener goroutine stands: at its `select` (about to evaluate it, or blocked in
it), between the receive `event := <-ch` and the call of `Async`, or returned. -/
inductive ListenerPc where
  | waiting
  | received (event : Event)
  | exited
  deriving DecidableEq, Repr

/-- One listener goroutine of `Start`: the arguments `pair` and `subscription` of the
`go func`, whether the channel `subscription.Err()` has fired, and the program point.
The argument `ch` is the listener's own index in `World.listeners`. -/
structure Listener where
  pair : eventHandlerQueuePair
  subscription : FeedPtr
  err : Bool
  pc : ListenerPc
  deriving DecidableEq, Repr

/-- A call `feed.Send(event)` in progress: the subscriber channels that have not yet
received the event.  The call (and the `Dispatch` around it) has returned when
`pending` is empty. -/
structure Send where
  feed : FeedPtr
  event : Event
  pending : List Nat
  deriving DecidableEq, Repr

/-- The service together with everything it points to or has started: the feed objects,
the listener goroutines and the `Send` calls made by `Dispatch`. -/
structure World where
  svc : Service
  heap : List Feed
  listeners : List Listener
  sends : List Send

/-- The feed object at an address; an address outside the heap reads as an unused feed. -/
def World.feedAt (w : World) (feed : FeedPtr) : Feed :=
  w.heap[feed]?.getD { etype := none, subs := [] }

/-- How a call ends: it returns a value, or it panics.  `w` is the state at that point. -/
inductive Outcome (α : Type) where
  | returned (w : World) (val : α)
  | panicked (w : World) (err : Err)

/-- The state in which a call ends. -/
def Outcome.world {α : Type} : Outcome α → World
  | .returned w _ => w
  | .panicked w _ => w

/-! ## The methods of `Service` -/

/-- The constructor `NewService`: empty maps, the given dispatcher, an open `stop` channel;
`running` has its zero value. -/
def NewService (dispatch : GrandCentralDispatch) : World :=
  { svc := { running := false, feeds := ∅, handlers := ∅, dispatch := dispatch, stop := false }
    heap := []
    listeners := []
    sends := [] }

/-- The body of the inner loop of `Start`: make a `chan interface{}`, subscribe it to the
feed and start a goroutine with `pair`, the channel and the subscription.  When
`Subscribe` panics no goroutine is started. -/
def spawn (feed : FeedPtr) (w : World) (pair : eventHandlerQueuePair) : Outcome Unit :=
  match (w.feedAt feed).Subscribe w.listeners.length GoType.emptyInterface with
  | none => .panicked w Err.feedTypeError
  | some f =>
    .returned
      { w with
        heap := w.heap.set feed f
        listeners := w.listeners ++
          [{ pair := pair, subscription := feed, err := false, pc := ListenerPc.waiting }] } ()

/-- The inner loop of `Start` over the pairs of one name; a panic ends it. -/
def spawnAll (feed : FeedPtr) : World → List eventHandlerQueuePair → Outcome Unit
  | w, [] => .returned w ()
  | w, pair :: rest =>
    match spawn feed w pair with
    | .returned w1 _ => spawnAll feed w1 rest
    | .panicked w1 err => .panicked w1 err

/-- The body of the outer loop of `Start` for one entry of `s.handlers`: skip the name
when it has no feed, otherwise spawn a listener per pair. -/
def startEntry (w : World) (entry : Sigma (fun _ : String => List eventHandlerQueuePair)) :
    Outcome Unit :=
  match w.svc.feeds.lookup entry.1 with
  | none => .returned w ()
  | some feed => spawnAll feed w entry.2

/-- The outer loop of `Start` over the entries of `s.handlers`; a panic ends it. -/
def startLoop : World → List (Sigma (fun _ : String => List eventHandlerQueuePair)) →
    Outcome Unit
  | w, [] => .returned w ()
  | w, entry :: rest =>
    match startEntry w entry with
    | .returned w1 _ => startLoop w1 rest
    | .panicked w1 err => .panicked w1 err

/-- The method `Service.Start`: set `running`, then loop over the entries of `s.handlers`.
It has no guard on `running` or on the stop channel. -/
def Start (w : World) : Outcome Unit :=
  startLoop { w with svc := { w.svc with running := true } } w.svc.handlers.entries

/-- The names for which the loop of `Start` takes its `continue` branch. -/
def startSkipped (s : Service) : List String :=
  s.handlers.keys.filter (fun name => (s.feeds.lookup name).isNone)

/-- The method `Service.Stop`: `close(s.stop)` panics on a closed channel; otherwise the channel is
closed, `running` is cleared and `nil` is returned.  No listener is touched. -/
def Stop (w : World) : Outcome (Option Err) :=
  if w.svc.stop then
    .panicked w Err.closeOfClosedChannel
  else
    .returned { w with svc := { w.svc with stop := true, running := false } } none

/-- The method `Service.Status`: always `nil`. -/
def Status (w : World) : Outcome (Option Err) :=
  .returned w none

/-- The method `Service.RegisterFeed`; `new(event.Feed)` allocates an empty feed at a fresh
address. -/
def RegisterFeed (w : World) (name : String) : Outcome Unit :=
  if w.svc.running then
    .panicked w Err.ErrRegisterFeedServiceStarted
  else
    match w.svc.feeds.lookup name with
    | some _ => .returned w ()
    | none =>
      .returned
        { w with
          svc := { w.svc with feeds := w.svc.feeds.insert name w.heap.length }
          heap := w.heap ++ [{ etype := none, subs := [] }] } ()

/-- The method `Service.RegisterHandler`; `s.handlers[name]` of a missing key is the empty
list, to which `append` adds the new pair. -/
def RegisterHandler (w : World) (name : String) (queueID : String) (handler : EventHandler) :
    Outcome (Option Err) :=
  if w.svc.running then
    .panicked w Err.ErrRegisterFeedServiceStarted
  else
    match w.svc.feeds.lookup name with
    | none => .returned w (some Err.ErrFeedNotFound)
    | some _ =>
      .returned
        { w with
          svc := { w.svc with
            handlers := w.svc.handlers.insert name
              (((w.svc.handlers.lookup name).getD []) ++
                [{ handler := handler, queueID := queueID }]) } } none

/-- The method `Service.Dispatch`: with no feed under `name` nothing happens; otherwise
`feed.Send(event)` is called.  When its type check panics, so does `Dispatch`.  Otherwise
the event is offered to every channel subscribed to the feed, also to those whose
listener has returned (a listener never unsubscribes), and the call returns once every
one of them has received it, that is when the `pending` of its `Send` is empty. -/
def Dispatch (w : World) (name : String) (event : Event) : Outcome Unit :=
  match w.svc.feeds.lookup name with
  | none => .returned w ()
  | some feed =>
    match (w.feedAt feed).Send event with
    | none => .panicked w Err.feedTypeError
    | some (f, subs) =>
      .returned
        { w with
          heap := w.heap.set feed f
          sends := w.sends ++ [{ feed := feed, event := event, pending := subs }] } ()

/-! ## The listener goroutine -/

/-- The first `Send` in progress that still offers its event on channel `ch` hands it
over: the event, and the sends with `ch` struck off. -/
def takeFrom : List Send → Nat → Option (Event × List Send)
  | [], _ => none
  | s :: rest, ch =>
    if ch ∈ s.pending then
      some (s.event, { s with pending := s.pending.erase ch } :: rest)
    else
      (takeFrom rest ch).map (fun r => (r.1, s :: r.2))

/-- The branch `case event := <-ch` of listener `i`: enabled when the listener is at its
`select` and some `Send` offers an event on its channel.  Go's `select` picks any of the
communications that can proceed, so the branch can be taken whether or not the stop
channel is closed. -/
def recv (w : World) (i : Nat) : Option World :=
  match w.listeners[i]? with
  | none => none
  | some l =>
    if l.pc = ListenerPc.waiting then
      match takeFrom w.sends i with
      | none => none
      | some (e, sends) =>
        some { w with
          listeners := w.listeners.set i { l with pc := ListenerPc.received e }
          sends := sends }
    else none

/-- The body of that branch: `s.dispatch.GetQueue(pair.queueID).Async(func() {...})`, after
which the listener is back in its `select`. -/
def async (w : World) (i : Nat) : Option World :=
  match w.listeners[i]? with
  | none => none
  | some l =>
    match l.pc with
    | ListenerPc.received e =>
      some { w with
        svc := { w.svc with
          dispatch := w.svc.dispatch.Async l.pair.queueID { pair := l.pair, event := e } }
        listeners := w.listeners.set i { l with pc := ListenerPc.waiting } }
    | _ => none

/-- The branch `case <-subscription.Err()`: enabled when the listener is in its `select`
and the subscription's error channel has fired; the goroutine returns. -/
def quitErr (w : World) (i : Nat) : Option World :=
  match w.listeners[i]? with
  | none => none
  | some l =>
    if l.pc = ListenerPc.waiting ∧ l.err = true then
      some { w with listeners := w.listeners.set i { l with pc := ListenerPc.exited } }
    else none

/-- The branch `case <-s.stop`: enabled when the listener is in its `select` and the stop
channel is closed; the goroutine returns. -/
def quitStop (w : World) (i : Nat) : Option World :=
  match w.listeners[i]? with
  | none => none
  | some l =>
    if l.pc = ListenerPc.waiting ∧ w.svc.stop = true then
      some { w with listeners := w.listeners.set i { l with pc := ListenerPc.exited } }
    else none

/-- Modelled from the spec: "the broadcast channel signals an error/closed condition".
The feed is external, so the signal comes from outside: the error channel of listener
`i`'s subscription fires. -/
def feedErr (w : World) (i : Nat) : Option World :=
  match w.listeners[i]? with
  | none => none
  | some l => some { w with listeners := w.listeners.set i { l with err := true } }

/-! ## Runs -/

/-- The atomic steps of a run: the calls of the API, the branches of the listeners, and
the error signal of a subscription. -/
inductive Action where
  | registerFeed (name : String)
  | registerHandler (name : String) (queueID : String) (handler : EventHandler)
  | start
  | stop
  | status
  | dispatch (name : String) (event : Event)
  | recv (i : Nat)
  | async (i : Nat)
  | quitErr (i : Nat)
  | quitStop (i : Nat)
  | feedErr (i : Nat)
  deriving DecidableEq, Repr

/-- One step.  A call that panics leaves the state as it was when the panic was raised;
a branch of a listener that is not enabled gives `none`. -/
def step (w : World) : Action → Option World
  | .registerFeed name => some (RegisterFeed w name).world
  | .registerHandler name queueID handler => some (RegisterHandler w name queueID handler).world
  | .start => some (Start w).world
  | .stop => some (Stop w).world
  | .status => some (Status w).world
  | .dispatch name event => some (Dispatch w name event).world
  | .recv i => recv w i
  | .async i => async w i
  | .quitErr i => quitErr w i
  | .quitStop i => quitStop w i
  | .feedErr i => feedErr w i

/-- A run: the steps one after the other, `none` as soon as one is not enabled. -/
def run (w : World) : List Action → Option World
  | [] => some w
  | a :: rest => (step w a).bind (fun w1 => run w1 rest)

/-- The binding list of a feed name (`s.handlers[name]`, empty when there is no entry). -/
def bindings (w : World) (name : String) : List eventHandlerQueuePair :=
  (w.svc.handlers.lookup name).getD []

/-! ## Invariants used in the proofs -/

/-- Every name with an entry in the binding map has a feed. -/
def BindingsHaveFeeds (w : World) : Prop :=
  ∀ name, name ∈ w.svc.handlers → name ∈ w.svc.feeds

/-- No event is on its way to a handler: every feed with a subscriber has the element
type `interface{}`, no `Send` has a channel left to deliver to, and no listener stands
between a receive and its `Async`. -/
structure NoDelivery (w : World) : Prop where
  typed : ∀ f ∈ w.heap, f.subs ≠ [] → f.etype = some GoType.emptyInterface
  delivered : ∀ s ∈ w.sends, s.pending = []
  idle : ∀ l ∈ w.listeners, ∀ e, l.pc ≠ ListenerPc.received e

/-! ## Registration -/

theorem spawn_svc (feed : FeedPtr) (w : World) (pair : eventHandlerQueuePair) :
    (spawn feed w pair).world.svc = w.svc := by
  unfold spawn
  split <;> rfl

theorem spawnAll_svc (feed : FeedPtr) (pairs : List eventHandlerQueuePair) (w : World) :
    (spawnAll feed w pairs).world.svc = w.svc := by
  induction pairs generalizing w with
  | nil => rfl
  | cons p ps ih =>
    have h := spawn_svc feed w p
    unfold spawnAll
    split
    · rename_i w1 _ heq
      rw [heq] at h
      exact (ih w1).trans h
    · rename_i w1 _ heq
      rw [heq] at h
      exact h

theorem startEntry_svc (w : World)
    (entry : Sigma (fun _ : String => List eventHandlerQueuePair)) :
    (startEntry w entry).world.svc = w.svc := by
  unfold startEntry
  split
  · rfl
  · exact spawnAll_svc _ _ _

theorem startLoop_svc
    (entries : List (Sigma (fun _ : String => List eventHandlerQueuePair))) (w : World) :
    (startLoop w entries).world.svc = w.svc := by
  induction entries generalizing w with
  | nil => rfl
  | cons e es ih =>
    have h := startEntry_svc w e
    unfold startLoop
    split
    · rename_i w1 _ heq
      rw [heq] at h
      exact (ih w1).trans h
    · rename_i w1 _ heq
      rw [heq] at h
      exact h

theorem Start_svc (w : World) : (Start w).world.svc = { w.svc with running := true } := by
  unfold Start
  rw [startLoop_svc]

/-- C2: on a service that is not running, `RegisterHandler` for a name without a feed
returns `ErrFeedNotFound` and leaves the whole state as it was: the binding map (no entry
is made for the name), the feed map and the running flag. -/
theorem registerHandler_unknown_feed (w : World) (name queueID : String)
    (handler : EventHandler) (hrun : w.svc.running = false)
    (hfeed : w.svc.feeds.lookup name = none) :
    RegisterHandler w name queueID handler = .returned w (some Err.ErrFeedNotFound) ∧
      (RegisterHandler w name queueID handler).world.svc.handlers = w.svc.handlers ∧
      (RegisterHandler w name queueID handler).world.svc.feeds = w.svc.feeds ∧
      (RegisterHandler w name queueID handler).world.svc.running = false ∧
      (RegisterHandler w name queueID handler).world.svc.handlers.lookup name =
        w.svc.handlers.lookup name := by
  have h : RegisterHandler w name queueID handler = .returned w (some Err.ErrFeedNotFound) := by
    simp [RegisterHandler, hrun, hfeed]
  simp [h, Outcome.world, hrun]

theorem registerHandler_unknown_feed_witness :
    (NewService ⟨[]⟩).svc.running = false ∧
      (NewService ⟨[]⟩).svc.feeds.lookup "missing-feed" = none ∧
      RegisterHandler (NewService ⟨[]⟩) "missing-feed" "q1" 7 =
        .returned (NewService ⟨[]⟩) (some Err.ErrFeedNotFound) :=
  ⟨rfl, rfl, (registerHandler_unknown_feed (NewService ⟨[]⟩) "missing-feed" "q1" 7 rfl rfl).1⟩

/-- C3: on a running service `RegisterFeed` and `RegisterHandler` both panic with
`ErrRegisterFeedServiceStarted`, whatever the name, the queue and the handler, and the
state at the panic is the state before the call (feed map and binding map untouched). -/
theorem register_while_running_panics (w : World) (name queueID : String)
    (handler : EventHandler) (hrun : w.svc.running = true) :
    RegisterFeed w name = .panicked w Err.ErrRegisterFeedServiceStarted ∧
      RegisterHandler w name queueID handler = .panicked w Err.ErrRegisterFeedServiceStarted ∧
      (RegisterFeed w name).world.svc.feeds = w.svc.feeds ∧
      (RegisterFeed w name).world.svc.handlers = w.svc.handlers ∧
      (RegisterHandler w name queueID handler).world.svc.feeds = w.svc.feeds ∧
      (RegisterHandler w name queueID handler).world.svc.handlers = w.svc.handlers := by
  simp [RegisterFeed, RegisterHandler, hrun, Outcome.world]

theorem register_while_running_panics_witness :
    (Start (NewService ⟨[]⟩)).world.svc.running = true ∧
      RegisterFeed (Start (NewService ⟨[]⟩)).world "late" =
        .panicked (Start (NewService ⟨[]⟩)).world Err.ErrRegisterFeedServiceStarted ∧
      RegisterHandler (Start (NewService ⟨[]⟩)).world "late" "q1" 7 =
        .panicked (Start (NewService ⟨[]⟩)).world Err.ErrRegisterFeedServiceStarted :=
  ⟨rfl, (register_while_running_panics (Start (NewService ⟨[]⟩)).world "late" "q1" 7 rfl).1,
    (register_while_running_panics (Start (NewService ⟨[]⟩)).world "late" "q1" 7 rfl).2.1⟩

/-- C4: in every state, `Dispatch` on a name without a feed returns and changes nothing at
all: `Send` is not called, nothing is submitted to the dispatcher, no feed is created, the
maps and the running flag stay as they were, and every run goes on as without the call. -/
theorem dispatch_unknown_feed_noop (w : World) (name : String) (event : Event)
    (hfeed : w.svc.feeds.lookup name = none) :
    Dispatch w name event = .returned w () ∧
      step w (.dispatch name event) = some w ∧
      (Dispatch w name event).world.sends = w.sends ∧
      (Dispatch w name event).world.svc.dispatch.submitted = w.svc.dispatch.submitted ∧
      (Dispatch w name event).world.svc.feeds.lookup name = none ∧
      ∀ acts, run (Dispatch w name event).world acts = run w acts := by
  have h : Dispatch w name event = .returned w () := by simp [Dispatch, hfeed]
  simp [h, step, hfeed, Outcome.world]

theorem dispatch_unknown_feed_noop_witness :
    (Start (NewService ⟨[]⟩)).world.svc.feeds.lookup "nobody" = none ∧
      Dispatch (Start (NewService ⟨[]⟩)).world "nobody" { typ := "int", val := 42 } =
        .returned (Start (NewService ⟨[]⟩)).world () :=
  ⟨rfl, (dispatch_unknown_feed_noop (Start (NewService ⟨[]⟩)).world "nobody"
    { typ := "int", val := 42 } rfl).1⟩

/-- C5: on a service that is not running, `RegisterFeed` returns, and a second call with
the same name returns the very state the first call left.  After them the name has one
entry in the feed map: the feed it had before, or else the feed allocated by the first
call at a fresh address; the second call allocates nothing.  The feeds of the other names
and the binding map are unchanged. -/
theorem registerFeed_idempotent (w : World) (name : String) (hrun : w.svc.running = false) :
    ∃ w1, RegisterFeed w name = .returned w1 () ∧
      RegisterFeed w1 name = .returned w1 () ∧
      w1.svc.feeds.lookup name = some ((w.svc.feeds.lookup name).getD w.heap.length) ∧
      w1.svc.feeds.keys.count name = 1 ∧
      w1.heap.length = (if (w.svc.feeds.lookup name).isSome then w.heap.length
        else w.heap.length + 1) ∧
      (∀ other, other ≠ name → w1.svc.feeds.lookup other = w.svc.feeds.lookup other) ∧
      w1.svc.handlers = w.svc.handlers := by
  cases hl : w.svc.feeds.lookup name with
  | some p =>
    refine ⟨w, ?_, ?_, ?_, ?_, ?_, ?_, rfl⟩
    · simp [RegisterFeed, hrun, hl]
    · simp [RegisterFeed, hrun, hl]
    · simp [hl]
    · have hmem : name ∈ w.svc.feeds.keys := by
        rw [← AList.mem_keys, ← AList.lookup_isSome, hl]; rfl
      exact List.count_eq_one_of_mem w.svc.feeds.keys_nodup hmem
    · simp
    · intro other _; rfl
  | none =>
    refine ⟨{ w with
        svc := { w.svc with feeds := w.svc.feeds.insert name w.heap.length }
        heap := w.heap ++ [{ etype := none, subs := [] }] }, ?_, ?_, ?_, ?_, ?_, ?_, rfl⟩
    · simp [RegisterFeed, hrun, hl]
    · simp [RegisterFeed, hrun, AList.lookup_insert]
    · simp [AList.lookup_insert]
    · exact List.count_eq_one_of_mem (AList.keys_nodup _)
        (by rw [← AList.mem_keys, AList.mem_insert]; exact Or.inl rfl)
    · simp
    · intro other hne
      exact AList.lookup_insert_ne hne

theorem registerFeed_idempotent_witness :
    (NewService ⟨[]⟩).svc.running = false ∧
      ∃ w1, RegisterFeed (NewService ⟨[]⟩) "blocks" = .returned w1 () ∧
        RegisterFeed w1 "blocks" = .returned w1 () ∧
        w1.svc.feeds.lookup "blocks" = some 0 :=
  ⟨rfl, (registerFeed_idempotent (NewService ⟨[]⟩) "blocks" rfl).imp
    (fun _ h => ⟨h.1, h.2.1, h.2.2.1⟩)⟩

/-- C6: on a service that is not running, `RegisterHandler` for a name that has a feed
returns `nil`, and the binding list of the name is afterwards the previous list followed
by the one new binding, whether or not an equal binding was already in the list.  The
binding lists of the other names, the feed map and the rest of the state are unchanged. -/
theorem registerHandler_appends (w : World) (name queueID : String) (handler : EventHandler)
    (hrun : w.svc.running = false) (hfeed : (w.svc.feeds.lookup name).isSome = true) :
    ∃ w1, RegisterHandler w name queueID handler = .returned w1 none ∧
      w1.svc.handlers.lookup name =
        some (bindings w name ++ [{ handler := handler, queueID := queueID }]) ∧
      bindings w1 name = bindings w name ++ [{ handler := handler, queueID := queueID }] ∧
      (∀ other, other ≠ name →
        w1.svc.handlers.lookup other = w.svc.handlers.lookup other) ∧
      w1.svc.feeds = w.svc.feeds ∧ w1.svc.running = w.svc.running ∧
      w1.svc.stop = w.svc.stop ∧ w1.svc.dispatch = w.svc.dispatch ∧
      w1.heap = w.heap ∧ w1.listeners = w.listeners ∧ w1.sends = w.sends := by
  obtain ⟨p, hp⟩ := Option.isSome_iff_exists.mp hfeed
  refine ⟨{ w with svc := { w.svc with
      handlers := w.svc.handlers.insert name
        (((w.svc.handlers.lookup name).getD []) ++
          [{ handler := handler, queueID := queueID }]) } }, ?_, ?_, ?_, ?_,
    rfl, rfl, rfl, rfl, rfl, rfl, rfl⟩
  · simp [RegisterHandler, hrun, hp]
  · simp [AList.lookup_insert, bindings]
  · simp [AList.lookup_insert, bindings]
  · intro other hne
    exact AList.lookup_insert_ne hne

theorem registerHandler_appends_witness :
    ∃ w1, RegisterHandler (RegisterFeed (NewService ⟨[]⟩) "blocks").world "blocks" "q1" 7 =
        .returned w1 none ∧
      w1.svc.handlers.lookup "blocks" = some [{ handler := 7, queueID := "q1" }] :=
  (registerHandler_appends (RegisterFeed (NewService ⟨[]⟩) "blocks").world "blocks" "q1" 7
    rfl rfl).imp (fun _ h => ⟨h.1, h.2.1⟩)

/-! ## Lifecycle and invariants -/

theorem recv_svc {w w1 : World} {i : Nat} (h : recv w i = some w1) : w1.svc = w.svc := by
  unfold recv at h
  split at h
  · simp at h
  · split at h
    · split at h
      · simp at h
      · simp at h; rw [← h]
    · simp at h

theorem async_svc {w w1 : World} {i : Nat} (h : async w i = some w1) :
    w1.svc.running = w.svc.running ∧ w1.svc.feeds = w.svc.feeds ∧
      w1.svc.handlers = w.svc.handlers ∧ w1.svc.stop = w.svc.stop := by
  unfold async at h
  split at h
  · simp at h
  · split at h
    · simp at h; rw [← h]; simp
    · simp at h

theorem quitErr_svc {w w1 : World} {i : Nat} (h : quitErr w i = some w1) : w1.svc = w.svc := by
  unfold quitErr at h
  split at h
  · simp at h
  · split at h
    · simp at h; rw [← h]
    · simp at h

theorem quitStop_svc {w w1 : World} {i : Nat} (h : quitStop w i = some w1) :
    w1.svc = w.svc := by
  unfold quitStop at h
  split at h
  · simp at h
  · split at h
    · simp at h; rw [← h]
    · simp at h

theorem feedErr_svc {w w1 : World} {i : Nat} (h : feedErr w i = some w1) : w1.svc = w.svc := by
  unfold feedErr at h
  split at h
  · simp at h
  · simp at h; rw [← h]

theorem Dispatch_svc (w : World) (name : String) (event : Event) :
    (Dispatch w name event).world.svc = w.svc := by
  unfold Dispatch
  split
  · rfl
  · split <;> rfl

theorem step_bindingsHaveFeeds {w w1 : World} {a : Action} (hinv : BindingsHaveFeeds w)
    (h : step w a = some w1) : BindingsHaveFeeds w1 := by
  cases a with
  | registerFeed name =>
    simp only [step, Option.some.injEq] at h
    subst h
    unfold RegisterFeed
    split
    · exact hinv
    · split
      · exact hinv
      · intro n hn
        simp only [Outcome.world, AList.mem_insert]
        exact Or.inr (hinv n hn)
  | registerHandler name queueID handler =>
    simp only [step, Option.some.injEq] at h
    subst h
    unfold RegisterHandler
    split
    · exact hinv
    · split
      · exact hinv
      · rename_i p hp
        intro n hn
        simp only [Outcome.world, AList.mem_insert] at hn ⊢
        rcases hn with rfl | hn
        · rw [← AList.lookup_isSome, hp]; rfl
        · exact hinv n hn
  | start =>
    simp only [step, Option.some.injEq] at h
    subst h
    intro n hn
    rw [Start_svc] at hn ⊢
    exact hinv n hn
  | stop =>
    simp only [step, Option.some.injEq] at h
    subst h
    unfold Stop
    split
    · exact hinv
    · exact hinv
  | status =>
    simp only [step, Status, Outcome.world, Option.some.injEq] at h
    subst h
    exact hinv
  | dispatch name event =>
    simp only [step, Option.some.injEq] at h
    subst h
    intro n hn
    rw [Dispatch_svc] at hn ⊢
    exact hinv n hn
  | recv i =>
    intro n hn
    rw [recv_svc h] at hn ⊢
    exact hinv n hn
  | async i =>
    intro n hn
    obtain ⟨_, hf, hh, _⟩ := async_svc h
    rw [hh] at hn
    rw [hf]
    exact hinv n hn
  | quitErr i =>
    intro n hn
    rw [quitErr_svc h] at hn ⊢
    exact hinv n hn
  | quitStop i =>
    intro n hn
    rw [quitStop_svc h] at hn ⊢
    exact hinv n hn
  | feedErr i =>
    intro n hn
    rw [feedErr_svc h] at hn ⊢
    exact hinv n hn

theorem run_bindingsHaveFeeds {acts : List Action} {w w1 : World}
    (hinv : BindingsHaveFeeds w) (h : run w acts = some w1) : BindingsHaveFeeds w1 := by
  induction acts generalizing w with
  | nil =>
    simp only [run, Option.some.injEq] at h
    subst h
    exact hinv
  | cons a rest ih =>
    simp only [run] at h
    cases hs : step w a with
    | none => simp [hs] at h
    | some w2 =>
      rw [hs] at h
      exact ih (step_bindingsHaveFeeds hinv hs) h

/-- C7: in every state reached from `NewService` by any run (calls of `RegisterFeed`,
`RegisterHandler`, `Start`, `Dispatch`, `Status`, `Stop`, and the steps of the listeners),
every name with an entry in the binding map has a feed in the feed map, so the loop of
`Start` takes its `continue` branch for no name: for every entry the loop body finds the
feed and spawns the listeners. -/
theorem bindings_reference_registered_feeds (d : GrandCentralDispatch) (acts : List Action)
    (w : World) (h : run (NewService d) acts = some w) :
    (∀ name, name ∈ w.svc.handlers → name ∈ w.svc.feeds) ∧ startSkipped w.svc = [] ∧
      ∀ acc : World, acc.svc.feeds = w.svc.feeds →
        ∀ entry ∈ w.svc.handlers.entries, ∃ feed, w.svc.feeds.lookup entry.1 = some feed ∧
          startEntry acc entry = spawnAll feed acc entry.2 := by
  have hinv : BindingsHaveFeeds w :=
    run_bindingsHaveFeeds (fun n hn => absurd hn (AList.not_mem_empty n)) h
  have hsome : ∀ n, n ∈ w.svc.handlers.keys → ∃ p, w.svc.feeds.lookup n = some p := by
    intro n hn
    have := hinv n (AList.mem_keys.mpr hn)
    rw [← AList.lookup_isSome] at this
    exact Option.isSome_iff_exists.mp this
  refine ⟨hinv, ?_, ?_⟩
  · unfold startSkipped
    rw [List.filter_eq_nil_iff]
    intro n hn
    obtain ⟨p, hp⟩ := hsome n hn
    simp [hp]
  · intro acc hacc entry hentry
    obtain ⟨p, hp⟩ := hsome entry.1 (List.mem_keys_of_mem hentry)
    exact ⟨p, hp, by simp [startEntry, hacc, hp]⟩

theorem bindings_reference_registered_feeds_witness :
    run (NewService ⟨[]⟩)
        [.registerHandler "early" "q1" 7, .registerFeed "blocks",
          .registerHandler "blocks" "q1" 7, .start] =
        some (Start (RegisterHandler (RegisterFeed (NewService ⟨[]⟩) "blocks").world
          "blocks" "q1" 7).world).world ∧
      startSkipped (Start (RegisterHandler (RegisterFeed (NewService ⟨[]⟩) "blocks").world
        "blocks" "q1" 7).world).world.svc = [] :=
  ⟨rfl, (bindings_reference_registered_feeds ⟨[]⟩
    [.registerHandler "early" "q1" 7, .registerFeed "blocks",
      .registerHandler "blocks" "q1" 7, .start] _ rfl).2.1⟩

theorem step_stop_closed {w w1 : World} {a : Action} (hstop : w.svc.stop = true)
    (h : step w a = some w1) : w1.svc.stop = true := by
  cases a with
  | registerFeed name =>
    simp only [step, Option.some.injEq] at h
    subst h
    unfold RegisterFeed
    split
    · exact hstop
    · split <;> exact hstop
  | registerHandler name queueID handler =>
    simp only [step, Option.some.injEq] at h
    subst h
    unfold RegisterHandler
    split
    · exact hstop
    · split <;> exact hstop
  | start =>
    simp only [step, Option.some.injEq] at h
    subst h
    rw [Start_svc]
    exact hstop
  | stop =>
    simp only [step, Option.some.injEq] at h
    subst h
    simp [Stop, hstop, Outcome.world]
  | status =>
    simp only [step, Status, Outcome.world, Option.some.injEq] at h
    subst h
    exact hstop
  | dispatch name event =>
    simp only [step, Option.some.injEq] at h
    subst h
    rw [Dispatch_svc]
    exact hstop
  | recv i => rw [recv_svc h]; exact hstop
  | async i => rw [(async_svc h).2.2.2]; exact hstop
  | quitErr i => rw [quitErr_svc h]; exact hstop
  | quitStop i => rw [quitStop_svc h]; exact hstop
  | feedErr i => rw [feedErr_svc h]; exact hstop

theorem step_not_running {w w1 : World} {a : Action} (hrun : w.svc.running = false)
    (ha : a ≠ Action.start) (h : step w a = some w1) : w1.svc.running = false := by
  cases a with
  | registerFeed name =>
    simp only [step, Option.some.injEq] at h
    subst h
    unfold RegisterFeed
    split
    · exact hrun
    · split <;> exact hrun
  | registerHandler name queueID handler =>
    simp only [step, Option.some.injEq] at h
    subst h
    unfold RegisterHandler
    split
    · exact hrun
    · split <;> exact hrun
  | start => exact absurd rfl ha
  | stop =>
    simp only [step, Option.some.injEq] at h
    subst h
    unfold Stop
    split
    · exact hrun
    · rfl
  | status =>
    simp only [step, Status, Outcome.world, Option.some.injEq] at h
    subst h
    exact hrun
  | dispatch name event =>
    simp only [step, Option.some.injEq] at h
    subst h
    rw [Dispatch_svc]
    exact hrun
  | recv i => rw [recv_svc h]; exact hrun
  | async i => rw [(async_svc h).1]; exact hrun
  | quitErr i => rw [quitErr_svc h]; exact hrun
  | quitStop i => rw [quitStop_svc h]; exact hrun
  | feedErr i => rw [feedErr_svc h]; exact hrun

theorem run_stop_closed {acts : List Action} {w w1 : World} (hstop : w.svc.stop = true)
    (h : run w acts = some w1) : w1.svc.stop = true := by
  induction acts generalizing w with
  | nil =>
    simp only [run, Option.some.injEq] at h
    subst h
    exact hstop
  | cons a rest ih =>
    simp only [run] at h
    cases hs : step w a with
    | none => simp [hs] at h
    | some w2 =>
      rw [hs] at h
      exact ih (step_stop_closed hstop hs) h

theorem run_not_running {acts : List Action} {w w1 : World} (hrun : w.svc.running = false)
    (hacts : Action.start ∉ acts) (h : run w acts = some w1) : w1.svc.running = false := by
  induction acts generalizing w with
  | nil =>
    simp only [run, Option.some.injEq] at h
    subst h
    exact hrun
  | cons a rest ih =>
    simp only [run] at h
    cases hs : step w a with
    | none => simp [hs] at h
    | some w2 =>
      rw [hs] at h
      have hne : a ≠ Action.start := fun heq => hacts (heq ▸ List.mem_cons_self _ _)
      exact ih (step_not_running hrun hne hs) (fun hm => hacts (List.mem_cons_of_mem _ hm)) h

/-- C8, as the code has it: a `Stop` on an open stop channel returns `nil`, closes the
channel and clears the running flag.  From then on, whatever is called, the stop channel
stays closed and a further `Stop` panics without changing anything; the running flag
stays cleared as long as `Start` is not called, and it is set again by any later `Start`,
which has no guard. -/
theorem stop_signal_is_terminal (w0 : World) (acts : List Action) (w1 : World)
    (hopen : w0.svc.stop = false) (h : run (Stop w0).world acts = some w1) :
    (∃ w, Stop w0 = .returned w none ∧ w.svc.stop = true ∧ w.svc.running = false) ∧
      w1.svc.stop = true ∧
      Stop w1 = .panicked w1 Err.closeOfClosedChannel ∧
      (Action.start ∉ acts → w1.svc.running = false) ∧
      (Start w1).world.svc.running = true ∧ (Start w1).world.svc.stop = true := by
  have hs : Stop w0 =
      .returned { w0 with svc := { w0.svc with stop := true, running := false } } none := by
    simp [Stop, hopen]
  rw [hs] at h
  have hclosed : w1.svc.stop = true := run_stop_closed rfl h
  refine ⟨⟨_, hs, rfl, rfl⟩, hclosed, ?_, ?_, ?_, ?_⟩
  · simp [Stop, hclosed]
  · intro hno
    exact run_not_running rfl hno h
  · rw [Start_svc]
  · rw [Start_svc]
    exact hclosed

theorem stop_signal_is_terminal_witness :
    (Start (NewService ⟨[]⟩)).world.svc.stop = false ∧
      (Stop (Stop (Start (NewService ⟨[]⟩)).world).world).world.svc.stop = true ∧
      (Stop (Stop (Start (NewService ⟨[]⟩)).world).world).world.svc.running = false :=
  ⟨rfl,
    (stop_signal_is_terminal (Start (NewService ⟨[]⟩)).world [.stop]
      (Stop (Stop (Start (NewService ⟨[]⟩)).world).world).world rfl rfl).2.1,
    (stop_signal_is_terminal (Start (NewService ⟨[]⟩)).world [.stop]
      (Stop (Stop (Start (NewService ⟨[]⟩)).world).world).world rfl rfl).2.2.2.1 (by decide)⟩

/-- C8 as stated fails: after `Start`, `Stop`, a second `Start` puts the running flag
back to `true` (stopped, running, stopped, running). -/
theorem restart_after_stop_runs_again :
    (NewService ⟨[]⟩).svc.running = false ∧
      (run (NewService ⟨[]⟩) [.start]).map (fun w => w.svc.running) = some true ∧
      (run (NewService ⟨[]⟩) [.start, .stop]).map (fun w => w.svc.running) = some false ∧
      (run (NewService ⟨[]⟩) [.start, .stop, .start]).map (fun w => w.svc.running) =
        some true := by
  decide

/-- C10 at the failing run: `Stop` returns `nil` at once, and the listener spawned by
`Start` has not exited in the state in which it returns; `Stop` never changes a listener. -/
theorem stop_returns_before_listeners_exit :
    (run (NewService ⟨[]⟩)
        [.registerFeed "blocks", .registerHandler "blocks" "q1" 7, .start]).map
        (fun w => (match Stop w with
          | .returned w1 val => some (val, w1.listeners.map (fun l => l.pc))
          | .panicked _ _ => none)) =
        some (some (none, [ListenerPc.waiting])) ∧
      ∀ w : World, (Stop w).world.listeners = w.listeners := by
  refine ⟨by decide, ?_⟩
  intro w
  unfold Stop
  split <;> rfl


/-! ## No event reaches a listener -/

theorem subscribe_etype {ch : Nat} {elem : GoType} {f g : Feed}
    (h : f.Subscribe ch elem = some g) : g.etype = some elem := by
  unfold Feed.Subscribe at h
  split at h
  · simp only [Option.some.injEq] at h
    rw [← h]
  · rename_i t ht
    split at h
    · rename_i heq
      simp only [Option.some.injEq] at h
      rw [← h, ← heq]
      exact ht
    · simp at h

theorem feedAt_typed {w : World} (hinv : NoDelivery w) (feed : FeedPtr)
    (hsubs : (w.feedAt feed).subs ≠ []) :
    (w.feedAt feed).etype = some GoType.emptyInterface := by
  unfold World.feedAt at hsubs ⊢
  cases hget : w.heap[feed]? with
  | none => simp [hget] at hsubs
  | some f =>
    rw [hget] at hsubs
    simp only [Option.getD_some] at hsubs ⊢
    exact hinv.typed f (List.getElem?_mem hget) hsubs

theorem send_no_subscriber {w : World} (hinv : NoDelivery w) {feed : FeedPtr} {event : Event}
    {f : Feed} {subs : List Nat} (h : (w.feedAt feed).Send event = some (f, subs)) :
    subs = [] ∧ f.subs = [] := by
  have hempty : (w.feedAt feed).subs = [] := by
    by_contra hne
    have ht := feedAt_typed hinv feed hne
    simp [Feed.Send, ht, Event.dynType] at h
  unfold Feed.Send at h
  split at h
  · simp only [Option.some.injEq, Prod.mk.injEq] at h
    obtain ⟨h1, h2⟩ := h
    rw [← h1, ← h2]
    exact ⟨hempty, hempty⟩
  · split at h
    · simp only [Option.some.injEq, Prod.mk.injEq] at h
      obtain ⟨h1, h2⟩ := h
      rw [← h1, ← h2]
      exact ⟨hempty, hempty⟩
    · simp at h

theorem spawn_noDelivery {w : World} (hinv : NoDelivery w) (feed : FeedPtr)
    (pair : eventHandlerQueuePair) : NoDelivery (spawn feed w pair).world := by
  unfold spawn
  split
  · exact hinv
  · rename_i f hf
    refine ⟨?_, hinv.delivered, ?_⟩
    · intro g hg hsubs
      rcases List.mem_or_eq_of_mem_set hg with hg | hg
      · exact hinv.typed g hg hsubs
      · rw [hg]
        exact subscribe_etype hf
    · intro l hl e
      simp only [Outcome.world, List.mem_append, List.mem_singleton] at hl
      rcases hl with hl | hl
      · exact hinv.idle l hl e
      · rw [hl]
        simp

theorem spawnAll_noDelivery (feed : FeedPtr) (pairs : List eventHandlerQueuePair) {w : World}
    (hinv : NoDelivery w) : NoDelivery (spawnAll feed w pairs).world := by
  induction pairs generalizing w with
  | nil => exact hinv
  | cons p ps ih =>
    have h := spawn_noDelivery hinv feed p
    unfold spawnAll
    split
    · rename_i w1 _ heq
      rw [heq] at h
      exact ih h
    · rename_i w1 _ heq
      rw [heq] at h
      exact h

theorem startLoop_noDelivery
    (entries : List (Sigma (fun _ : String => List eventHandlerQueuePair))) {w : World}
    (hinv : NoDelivery w) : NoDelivery (startLoop w entries).world := by
  induction entries generalizing w with
  | nil => exact hinv
  | cons e es ih =>
    have h : NoDelivery (startEntry w e).world := by
      unfold startEntry
      split
      · exact hinv
      · exact spawnAll_noDelivery _ _ hinv
    unfold startLoop
    split
    · rename_i w1 _ heq
      rw [heq] at h
      exact ih h
    · rename_i w1 _ heq
      rw [heq] at h
      exact h

theorem Start_noDelivery {w : World} (hinv : NoDelivery w) : NoDelivery (Start w).world := by
  unfold Start
  exact startLoop_noDelivery _ ⟨hinv.typed, hinv.delivered, hinv.idle⟩

theorem Dispatch_noDelivery {w : World} (hinv : NoDelivery w) (name : String)
    (event : Event) : NoDelivery (Dispatch w name event).world := by
  unfold Dispatch
  split
  · exact hinv
  · split
    · exact hinv
    · rename_i feed _ f subs hsend
      obtain ⟨h1, h2⟩ := send_no_subscriber hinv hsend
      refine ⟨?_, ?_, hinv.idle⟩
      · intro g hg hsubs
        rcases List.mem_or_eq_of_mem_set hg with hg | hg
        · exact hinv.typed g hg hsubs
        · rw [hg] at hsubs
          exact absurd h2 hsubs
      · intro s hs
        simp only [Outcome.world, List.mem_append, List.mem_singleton] at hs
        rcases hs with hs | hs
        · exact hinv.delivered s hs
        · rw [hs]
          exact h1

theorem takeFrom_none {sends : List Send} (h : ∀ s ∈ sends, s.pending = []) (ch : Nat) :
    takeFrom sends ch = none := by
  induction sends with
  | nil => rfl
  | cons s rest ih =>
    have hs : s.pending = [] := h s (List.mem_cons_self _ _)
    have hrest := ih (fun t ht => h t (List.mem_cons_of_mem _ ht))
    simp [takeFrom, hs, hrest]

theorem recv_none {w : World} (hinv : NoDelivery w) (i : Nat) : recv w i = none := by
  unfold recv
  split
  · rfl
  · rw [takeFrom_none hinv.delivered]
    split <;> rfl

theorem async_none {w : World} (hinv : NoDelivery w) (i : Nat) : async w i = none := by
  unfold async
  split
  · rfl
  · rename_i l hl
    split
    · rename_i e hpc
      exact absurd hpc (hinv.idle l (List.getElem?_mem hl) e)
    · rfl

theorem set_pc_noDelivery {w : World} (hinv : NoDelivery w) (i : Nat) (l : Listener)
    (hidle : ∀ e, l.pc ≠ ListenerPc.received e) :
    NoDelivery { w with listeners := w.listeners.set i l } := by
  refine ⟨hinv.typed, hinv.delivered, ?_⟩
  intro l1 hl1 e
  rcases List.mem_or_eq_of_mem_set hl1 with h | h
  · exact hinv.idle l1 h e
  · rw [h]
    exact hidle e

theorem step_noDelivery {w w1 : World} {a : Action} (hinv : NoDelivery w)
    (h : step w a = some w1) : NoDelivery w1 ∧ w1.svc.dispatch = w.svc.dispatch := by
  cases a with
  | registerFeed name =>
    simp only [step, Option.some.injEq] at h
    subst h
    unfold RegisterFeed
    split
    · exact ⟨hinv, rfl⟩
    · split
      · exact ⟨hinv, rfl⟩
      · refine ⟨⟨?_, hinv.delivered, hinv.idle⟩, rfl⟩
        intro f hf hsubs
        simp only [Outcome.world, List.mem_append, List.mem_singleton] at hf
        rcases hf with hf | hf
        · exact hinv.typed f hf hsubs
        · rw [hf] at hsubs
          exact absurd rfl hsubs
  | registerHandler name queueID handler =>
    simp only [step, Option.some.injEq] at h
    subst h
    unfold RegisterHandler
    split
    · exact ⟨hinv, rfl⟩
    · split
      · exact ⟨hinv, rfl⟩
      · exact ⟨⟨hinv.typed, hinv.delivered, hinv.idle⟩, rfl⟩
  | start =>
    simp only [step, Option.some.injEq] at h
    subst h
    refine ⟨Start_noDelivery hinv, ?_⟩
    rw [Start_svc]
  | stop =>
    simp only [step, Option.some.injEq] at h
    subst h
    unfold Stop
    split
    · exact ⟨hinv, rfl⟩
    · exact ⟨⟨hinv.typed, hinv.delivered, hinv.idle⟩, rfl⟩
  | status =>
    simp only [step, Status, Outcome.world, Option.some.injEq] at h
    subst h
    exact ⟨hinv, rfl⟩
  | dispatch name event =>
    simp only [step, Option.some.injEq] at h
    subst h
    refine ⟨Dispatch_noDelivery hinv name event, ?_⟩
    rw [Dispatch_svc]
  | recv i =>
    simp only [step, recv_none hinv] at h
    cases h
  | async i =>
    simp only [step, async_none hinv] at h
    cases h
  | quitErr i =>
    simp only [step, quitErr] at h
    split at h
    · simp at h
    · split at h
      · simp only [Option.some.injEq] at h
        subst h
        exact ⟨set_pc_noDelivery hinv i _ (by simp), rfl⟩
      · simp at h
  | quitStop i =>
    simp only [step, quitStop] at h
    split at h
    · simp at h
    · split at h
      · simp only [Option.some.injEq] at h
        subst h
        exact ⟨set_pc_noDelivery hinv i _ (by simp), rfl⟩
      · simp at h
  | feedErr i =>
    simp only [step, feedErr] at h
    split at h
    · simp at h
    · rename_i l hl
      simp only [Option.some.injEq] at h
      subst h
      exact ⟨set_pc_noDelivery hinv i _ (hinv.idle l (List.getElem?_mem hl)), rfl⟩

theorem run_noDelivery {acts : List Action} {w w1 : World} (hinv : NoDelivery w)
    (h : run w acts = some w1) : NoDelivery w1 ∧ w1.svc.dispatch = w.svc.dispatch := by
  induction acts generalizing w with
  | nil =>
    simp only [run, Option.some.injEq] at h
    subst h
    exact ⟨hinv, rfl⟩
  | cons a rest ih =>
    simp only [run] at h
    cases hs : step w a with
    | none => simp [hs] at h
    | some w2 =>
      rw [hs] at h
      obtain ⟨h1, h2⟩ := step_noDelivery hinv hs
      obtain ⟨h3, h4⟩ := ih h1 h
      exact ⟨h3, h4.trans h2⟩

theorem noDelivery_newService (d : GrandCentralDispatch) : NoDelivery (NewService d) where
  typed := by intro f hf; simp [NewService] at hf
  delivered := by intro s hs; simp [NewService] at hs
  idle := by intro l hl; simp [NewService] at hl

/-- C9: take any run from `NewService` (calls and listener steps in any order), a `Stop`
that returns `nil` in the state it reaches, and any run after that, with `Dispatch` calls
on registered feeds and listeners that have not yet taken their stop branch.  In the
state it ends in, the dispatcher holds exactly the submissions it held when `Stop`
returned, no `Send` has a channel left to deliver to, no listener holds an event, and no
listener can take its receive branch or call `Async`.  The reason is the feed's type
check: a feed with a subscribed `chan interface{}` accepts no event. -/
theorem no_submission_after_stop (d : GrandCentralDispatch) (pre post : List Action)
    (w ws w2 : World) (hpre : run (NewService d) pre = some w)
    (hstop : Stop w = .returned ws none) (hpost : run ws post = some w2) :
    w2.svc.dispatch.submitted = ws.svc.dispatch.submitted ∧
      (∀ s ∈ w2.sends, s.pending = []) ∧
      (∀ l ∈ w2.listeners, ∀ e, l.pc ≠ ListenerPc.received e) ∧
      ∀ i, recv w2 i = none ∧ async w2 i = none := by
  have hw : NoDelivery w := (run_noDelivery (noDelivery_newService d) hpre).1
  have hstep : step w Action.stop = some ws := by simp [step, hstop, Outcome.world]
  have hws : NoDelivery ws := (step_noDelivery hw hstep).1
  obtain ⟨h2, hd⟩ := run_noDelivery hws hpost
  exact ⟨by rw [hd], h2.delivered, h2.idle, fun i => ⟨recv_none h2 i, async_none h2 i⟩⟩

theorem no_submission_after_stop_witness :
    ∃ w ws w2,
      run (NewService ⟨[]⟩)
        [.registerFeed "blocks", .registerHandler "blocks" "q1" 7, .start] = some w ∧
      Stop w = .returned ws none ∧
      run ws [.dispatch "blocks" { typ := "int", val := 42 }, .quitStop 0] = some w2 ∧
      w2.svc.dispatch.submitted = [] ∧ recv w2 0 = none :=
  ⟨_, _, _, rfl, rfl, rfl,
    (no_submission_after_stop ⟨[]⟩
      [.registerFeed "blocks", .registerHandler "blocks" "q1" 7, .start]
      [.dispatch "blocks" { typ := "int", val := 42 }, .quitStop 0] _ _ _ rfl rfl rfl).1,
    ((no_submission_after_stop ⟨[]⟩
      [.registerFeed "blocks", .registerHandler "blocks" "q1" 7, .start]
      [.dispatch "blocks" { typ := "int", val := 42 }, .quitStop 0] _ _ _ rfl rfl rfl).2.2.2
        0).1⟩

/-- C1 at the failing run: after two bindings on feed `blocks` and `Start`, the feed has
the element type `interface{}` and both listeners are subscribed; `Dispatch` of an `int`
event then panics in the type check of `Send` with no `Send` in progress and nothing
submitted, and neither listener can receive afterwards. -/
theorem dispatch_panics_in_send :
    (run (NewService ⟨[]⟩)
        [.registerFeed "blocks", .registerHandler "blocks" "q1" 7,
          .registerHandler "blocks" "q1" 8, .start]).map
        (fun w => (w.heap, w.listeners.map (fun l => l.pair),
          (match Dispatch w "blocks" { typ := "int", val := 42 } with
            | .panicked w1 err => some (err, w1.sends, w1.svc.dispatch.submitted)
            | .returned _ _ => none))) =
        some ([{ etype := some GoType.emptyInterface, subs := [0, 1] }],
          [{ handler := 7, queueID := "q1" }, { handler := 8, queueID := "q1" }],
          some (Err.feedTypeError, [], [])) ∧
      (run (NewService ⟨[]⟩)
        [.registerFeed "blocks", .registerHandler "blocks" "q1" 7,
          .registerHandler "blocks" "q1" 8, .start,
          .dispatch "blocks" { typ := "int", val := 42 }, .recv 0]).isNone = true ∧
      (run (NewService ⟨[]⟩)
        [.registerFeed "blocks", .registerHandler "blocks" "q1" 7,
          .registerHandler "blocks" "q1" 8, .start,
          .dispatch "blocks" { typ := "int", val := 42 }, .recv 1]).isNone = true :=
  ⟨rfl, rfl, rfl⟩

end Notify
